import Mathlib

/-!
Shallow embedding of the BADGE.TEAM framebuffer drawing primitives
(`driver_framebuffer_drawing.cpp`): Bresenham line, scanline triangle,
quad, rectangle and arc/circle rasterizers.  Machine `int16_t`
coordinates are modelled as unbounded `Int`, the `double` vertex
coordinates of the triangle rasterizer as exact rationals `ℚ`; a C
cast `(int)` of a floating value is truncation toward zero.  Each
drawing routine is modelled as the list of (x, y) positions it passes
to `driver_framebuffer_setPixel`, in call order; the color argument is
carried along but passed through unmodified, exactly as in the source.
-/

namespace FbDraw

/-- A plotted position, as handed to `driver_framebuffer_setPixel`. -/
abbrev Pixel := Int × Int

/-! ## Line (`driver_framebuffer_line`) -/

/-- The Bresenham core loop of `driver_framebuffer_line`:
`for (; x0<=x1; x0++) { plot; err -= dy; if (err<0) { y0 += ystep; err += dx; } }`.
`n` is the number of remaining iterations, i.e. `x1 - x + 1` at entry. -/
def bres (dx dy ystep : Int) : Nat → Int → Int → Int → List Pixel
  | 0, _, _, _ => []
  | n + 1, x, y, err =>
    (x, y) ::
      (if err - dy < 0 then bres dx dy ystep n (x + 1) (y + ystep) (err - dy + dx)
       else bres dx dy ystep n (x + 1) y (err - dy))

/-- The `steep` test of `driver_framebuffer_line`:
`abs(y1 - y0) > abs(x1 - x0)`. -/
def steepOf (x0 y0 x1 y1 : Int) : Bool :=
  decide ((x1 - x0).natAbs < (y1 - y0).natAbs)

/-- The two swap passes at the head of `driver_framebuffer_line`: transpose
the coordinates when steep, then order the endpoints by (possibly
transposed) x.  Returns `(steep, x0, y0, x1, y1)` after both passes. -/
def lineCanon (x0 y0 x1 y1 : Int) : Bool × Int × Int × Int × Int :=
  let steep := steepOf x0 y0 x1 y1
  let u0 := if steep then y0 else x0
  let v0 := if steep then x0 else y0
  let u1 := if steep then y1 else x1
  let v1 := if steep then x1 else y1
  if u1 < u0 then (steep, u1, v1, u0, v0) else (steep, u0, v0, u1, v1)

/-- `driver_framebuffer_line window x0 y0 x1 y1 color`, as the list of
positions passed to `setPixel` (the color is passed through unchanged). -/
def driver_framebuffer_line (x0 y0 x1 y1 : Int) : List Pixel :=
  match lineCanon x0 y0 x1 y1 with
  | (steep, a0, b0, a1, b1) =>
    let dx := a1 - a0
    let dy : Int := (b1 - b0).natAbs
    let ystep : Int := if b0 < b1 then 1 else -1
    let raw := bres dx dy ystep (dx + 1).toNat a0 b0 (dx / 2)
    if steep then raw.map (fun p => (p.2, p.1)) else raw

theorem lineCanon_comm (x0 y0 x1 y1 : Int) :
    lineCanon x0 y0 x1 y1 = lineCanon x1 y1 x0 y0 := by
  have hsteep : steepOf x0 y0 x1 y1 = steepOf x1 y1 x0 y0 := by
    simp only [steepOf]
    exact decide_eq_decide.mpr (by omega)
  unfold lineCanon
  rw [hsteep]
  rcases h : steepOf x1 y1 x0 y0 with _ | _
  · simp only [Bool.false_eq_true, if_false]
    rcases lt_trichotomy x0 x1 with hx | hx | hx
    · rw [if_neg (by omega), if_pos (by omega)]
    · have hy : y0 = y1 := by
        simp only [steepOf, decide_eq_false_iff_not, Nat.not_lt] at h
        omega
      rw [if_neg (by omega), if_neg (by omega), hx, hy]
    · rw [if_pos (by omega), if_neg (by omega)]
  · simp only [if_true]
    rcases lt_trichotomy y0 y1 with hy | hy | hy
    · rw [if_neg (by omega), if_pos (by omega)]
    · have hx : x0 = x1 := by
        simp only [steepOf, decide_eq_true_eq] at h
        omega
      rw [if_neg (by omega), if_neg (by omega), hx, hy]
    · rw [if_pos (by omega), if_neg (by omega)]

/-- C2: `Line(x0,y0,x1,y1)` and `Line(x1,y1,x0,y0)` plot the identical
pixels: after the steep transposition and the endpoint-ordering swap the
two calls run the very same loop, so even the emitted pixel sequences
coincide (hence so do the pixel sets), for every pair of endpoints. -/
theorem line_symm (x0 y0 x1 y1 : Int) :
    driver_framebuffer_line x0 y0 x1 y1 = driver_framebuffer_line x1 y1 x0 y0 := by
  unfold driver_framebuffer_line
  rw [lineCanon_comm]

/-- `[a, a+1, ..., a+n-1]`: `n` consecutive integers starting at `a`. -/
def consecutive (a : Int) : Nat → List Int
  | 0 => []
  | n + 1 => a :: consecutive (a + 1) n

theorem consecutive_length (a : Int) (n : Nat) : (consecutive a n).length = n := by
  induction n generalizing a with
  | zero => rfl
  | succ n ih => simp [consecutive, ih]

theorem mem_consecutive {a t : Int} {n : Nat} :
    t ∈ consecutive a n ↔ a ≤ t ∧ t < a + n := by
  induction n generalizing a with
  | zero => simp [consecutive]
  | succ n ih =>
    simp only [consecutive, List.mem_cons, ih]
    omega

theorem bres_map_fst (dx dy ystep : Int) :
    ∀ (n : Nat) (x y err : Int),
      (bres dx dy ystep n x y err).map Prod.fst = consecutive x n := by
  intro n
  induction n with
  | zero => intro x y err; rfl
  | succ n ih =>
    intro x y err
    simp only [bres, consecutive]
    split_ifs with h <;> simp only [List.map_cons, ih]

/-- Facts established by the two swap passes of `driver_framebuffer_line`:
the canonical endpoints are x-sorted, the canonical x span is the dominant
span of the input, the canonical y span does not exceed it, the canonical
start x is the smaller dominant coordinate, and the two canonical
endpoints are the two input endpoints (transposed back when steep),
in one order or the other. -/
theorem lineCanon_spec (x0 y0 x1 y1 : Int) :
    ∃ a0 b0 a1 b1, lineCanon x0 y0 x1 y1 = (steepOf x0 y0 x1 y1, a0, b0, a1, b1) ∧
      a0 ≤ a1 ∧
      a1 - a0 = ((max (x1 - x0).natAbs (y1 - y0).natAbs : Nat) : Int) ∧
      ((b1 - b0).natAbs : Int) ≤ a1 - a0 ∧
      a0 = min (if steepOf x0 y0 x1 y1 then y0 else x0)
               (if steepOf x0 y0 x1 y1 then y1 else x1) ∧
      (((if steepOf x0 y0 x1 y1 then ((b0, a0) : Pixel) else (a0, b0)) = (x0, y0) ∧
        (if steepOf x0 y0 x1 y1 then ((b1, a1) : Pixel) else (a1, b1)) = (x1, y1)) ∨
       ((if steepOf x0 y0 x1 y1 then ((b0, a0) : Pixel) else (a0, b0)) = (x1, y1) ∧
        (if steepOf x0 y0 x1 y1 then ((b1, a1) : Pixel) else (a1, b1)) = (x0, y0))) := by
  rcases hs : steepOf x0 y0 x1 y1 with _ | _
  · have hle : (y1 - y0).natAbs ≤ (x1 - x0).natAbs := by
      have := hs
      simp only [steepOf, decide_eq_false_iff_not, Nat.not_lt] at this
      exact this
    simp only [lineCanon, steepOf] at *
    simp only [hs, Bool.false_eq_true, if_false]
    by_cases hc : x1 < x0
    · exact ⟨x1, y1, x0, y0, by rw [if_pos hc], by omega, by omega, by omega, by omega,
        Or.inr ⟨rfl, rfl⟩⟩
    · exact ⟨x0, y0, x1, y1, by rw [if_neg hc], by omega, by omega, by omega, by omega,
        Or.inl ⟨rfl, rfl⟩⟩
  · have hlt : (x1 - x0).natAbs < (y1 - y0).natAbs := by
      have := hs
      simp only [steepOf, decide_eq_true_eq] at this
      exact this
    simp only [lineCanon, steepOf] at *
    simp only [hs, if_true]
    by_cases hc : y1 < y0
    · exact ⟨y1, x1, y0, x0, by rw [if_pos hc], by omega, by omega, by omega, by omega,
        Or.inr ⟨rfl, rfl⟩⟩
    · exact ⟨y0, x0, y1, x1, by rw [if_neg hc], by omega, by omega, by omega, by omega,
        Or.inl ⟨rfl, rfl⟩⟩

/-- C3: a line plots exactly `max(|x1-x0|,|y1-y0|) + 1` pixels, one per
unit of the dominant axis with no gaps: mapping each plotted pixel to its
dominant-axis coordinate yields precisely the consecutive integers from
the smaller dominant endpoint coordinate upward; degenerate input
(`x0 = x1` and `y0 = y1`) plots exactly the single pixel `(x0, y0)`. -/
theorem line_pixel_count_no_gaps (x0 y0 x1 y1 : Int) :
    (driver_framebuffer_line x0 y0 x1 y1).length =
        max (x1 - x0).natAbs (y1 - y0).natAbs + 1 ∧
    (driver_framebuffer_line x0 y0 x1 y1).map
        (fun p => if steepOf x0 y0 x1 y1 then p.2 else p.1) =
      consecutive
        (min (if steepOf x0 y0 x1 y1 then y0 else x0)
             (if steepOf x0 y0 x1 y1 then y1 else x1))
        (max (x1 - x0).natAbs (y1 - y0).natAbs + 1) ∧
    (x0 = x1 ∧ y0 = y1 → driver_framebuffer_line x0 y0 x1 y1 = [(x0, y0)]) := by
  obtain ⟨a0, b0, a1, b1, hcanon, hle, hmax, hdy, hmin, hends⟩ := lineCanon_spec x0 y0 x1 y1
  have hmap : (driver_framebuffer_line x0 y0 x1 y1).map
      (fun p => if steepOf x0 y0 x1 y1 then p.2 else p.1) =
      consecutive
        (min (if steepOf x0 y0 x1 y1 then y0 else x0)
             (if steepOf x0 y0 x1 y1 then y1 else x1))
        (max (x1 - x0).natAbs (y1 - y0).natAbs + 1) := by
    unfold driver_framebuffer_line
    rw [hcanon, ← hmin]
    have hcount : (a1 - a0 + 1).toNat = max (x1 - x0).natAbs (y1 - y0).natAbs + 1 := by
      omega
    rcases hs : steepOf x0 y0 x1 y1 with _ | _
    · simp only [Bool.false_eq_true, if_false, hs]
      rw [show (fun p : Pixel => p.1) = Prod.fst from rfl, bres_map_fst, hcount]
    · simp only [if_true, List.map_map, hs]
      rw [show ((fun p : Pixel => p.2) ∘ fun p : Pixel => (p.2, p.1)) = Prod.fst from rfl,
        bres_map_fst, hcount]
  refine ⟨?_, hmap, ?_⟩
  · have h := congrArg List.length hmap
    rw [List.length_map, consecutive_length] at h
    exact h
  · rintro ⟨hx, hy⟩
    subst hx; subst hy
    simp [driver_framebuffer_line, lineCanon, steepOf, bres]

/-- Closed witness for `line_pixel_count_no_gaps`, instantiating the
degenerate-input clause at the origin. -/
theorem line_pixel_count_no_gaps_witness :
    (driver_framebuffer_line 0 0 0 0).length =
        max ((0 : Int) - 0).natAbs ((0 : Int) - 0).natAbs + 1 ∧
    driver_framebuffer_line 0 0 0 0 = [(0, 0)] :=
  ⟨(line_pixel_count_no_gaps 0 0 0 0).1,
   (line_pixel_count_no_gaps 0 0 0 0).2.2 ⟨rfl, rfl⟩⟩

theorem bres_ne_nil (dx dy ystep : Int) (n : Nat) (x y err : Int) :
    bres dx dy ystep (n + 1) x y err ≠ [] := by
  simp only [bres]
  split_ifs <;> simp

theorem getLast?_cons_ne_nil {α : Type} (a : α) {l : List α} (h : l ≠ []) :
    (a :: l).getLast? = l.getLast? := by
  cases l with
  | nil => exact absurd rfl h
  | cons b t => exact List.getLast?_cons_cons

theorem bres_head (dx dy ystep : Int) (n : Nat) (x y err : Int) :
    (bres dx dy ystep (n + 1) x y err).head? = some (x, y) := by
  simp only [bres]
  split_ifs <;> rfl

/-- The error-accumulator invariant of the Bresenham loop: after `n`
further steps from state `(x, y, err)` with `0 ≤ err < dx`, the last
plotted pixel is `(x + n, y + ystep * ((n * dy + (dx - 1 - err)) / dx))`. -/
theorem bres_getLast (dx dy ystep : Int) (hdx : 0 < dx) (hdy0 : 0 ≤ dy) (hdydx : dy ≤ dx) :
    ∀ (n : Nat) (x y err : Int), 0 ≤ err → err < dx →
      (bres dx dy ystep (n + 1) x y err).getLast? =
        some (x + n, y + ystep * (((n : Int) * dy + (dx - 1 - err)) / dx)) := by
  intro n
  induction n with
  | zero =>
    intro x y err h0 h1
    have hdiv : (dx - 1 - err) / dx = 0 :=
      Int.ediv_eq_zero_of_lt (by omega) (by omega)
    simp only [bres]
    split_ifs <;> simp [hdiv]
  | succ n ih =>
    intro x y err h0 h1
    show ((x, y) :: (if err - dy < 0 then bres dx dy ystep (n + 1) (x + 1) (y + ystep) (err - dy + dx)
        else bres dx dy ystep (n + 1) (x + 1) y (err - dy))).getLast? = _
    split_ifs with h
    · rw [getLast?_cons_ne_nil _ (bres_ne_nil dx dy ystep n (x + 1) (y + ystep) (err - dy + dx)),
        ih (x + 1) (y + ystep) (err - dy + dx) (by omega) (by omega)]
      have key : (((n : Int) + 1) * dy + (dx - 1 - err)) / dx =
          (((n : Int) + 1) * dy - 1 - err) / dx + 1 := by
        rw [show ((n : Int) + 1) * dy + (dx - 1 - err) =
            (((n : Int) + 1) * dy - 1 - err) + 1 * dx by ring]
        exact Int.add_mul_ediv_right _ 1 (by omega)
      simp only [Option.some.injEq, Prod.mk.injEq, Nat.cast_succ]
      refine ⟨by ring, ?_⟩
      rw [show (n : Int) * dy + (dx - 1 - (err - dy + dx)) =
          ((n : Int) + 1) * dy - 1 - err by ring, key]
      ring
    · rw [getLast?_cons_ne_nil _ (bres_ne_nil dx dy ystep n (x + 1) y (err - dy)),
        ih (x + 1) y (err - dy) (by omega) (by omega)]
      simp only [Option.some.injEq, Prod.mk.injEq, Nat.cast_succ]
      refine ⟨by ring, ?_⟩
      rw [show (n : Int) * dy + (dx - 1 - (err - dy)) =
          ((n : Int) + 1) * dy + (dx - 1 - err) by ring]

/-- 8-adjacency of two pixel positions (Chebyshev distance at most 1). -/
abbrev adjacent (p q : Pixel) : Prop :=
  (q.1 - p.1).natAbs ≤ 1 ∧ (q.2 - p.2).natAbs ≤ 1

/-- Consecutive pixels emitted by the Bresenham loop are 8-adjacent:
x advances by one each iteration and y moves by `ystep` or stays. -/
theorem bres_chain (dx dy ystep : Int) (hys : ystep = 1 ∨ ystep = -1) :
    ∀ (n : Nat) (x y err : Int), List.Chain' adjacent (bres dx dy ystep n x y err) := by
  intro n
  induction n with
  | zero => intro x y err; exact List.chain'_nil
  | succ n ih =>
    intro x y err
    rw [show bres dx dy ystep (n + 1) x y err = (x, y) ::
        (if err - dy < 0 then bres dx dy ystep n (x + 1) (y + ystep) (err - dy + dx)
         else bres dx dy ystep n (x + 1) y (err - dy)) from rfl]
    cases n with
    | zero => split_ifs <;> exact List.chain'_singleton _
    | succ m =>
      split_ifs with h
      · refine List.chain'_cons'.mpr ⟨?_, ih _ _ _⟩
        intro b hb
        rw [Option.mem_def, bres_head, Option.some.injEq] at hb
        subst hb
        refine ⟨by omega, ?_⟩
        rcases hys with h1 | h1 <;> subst h1 <;> simp
      · refine List.chain'_cons'.mpr ⟨?_, ih _ _ _⟩
        intro b hb
        rw [Option.mem_def, bres_head, Option.some.injEq] at hb
        subst hb
        exact ⟨by omega, by simp⟩

/-- Consecutive pixels plotted by `driver_framebuffer_line` are
8-adjacent; the line is a connected pixel path. -/
theorem line_chain (x0 y0 x1 y1 : Int) :
    List.Chain' adjacent (driver_framebuffer_line x0 y0 x1 y1) := by
  unfold driver_framebuffer_line
  rcases hcanon : lineCanon x0 y0 x1 y1 with ⟨s, a0, b0, a1, b1⟩
  have hys : (if b0 < b1 then (1 : Int) else -1) = 1 ∨
      (if b0 < b1 then (1 : Int) else -1) = -1 := by
    split_ifs <;> simp
  cases s
  · simpa using bres_chain _ _ _ hys _ _ _ _
  · simp only [if_true]
    exact List.chain'_map_of_chain' _ (fun a b hab => ⟨hab.2, hab.1⟩)
      (bres_chain _ _ _ hys _ _ _ _)

/-- The first pixel plotted by `driver_framebuffer_line` is one of the two
endpoints and the last pixel is the other endpoint (the ordering pass may
reverse the direction of travel, but both endpoints are always plotted,
first and last). -/
theorem line_head_getLast (x0 y0 x1 y1 : Int) :
    ((driver_framebuffer_line x0 y0 x1 y1).head? = some (x0, y0) ∧
     (driver_framebuffer_line x0 y0 x1 y1).getLast? = some (x1, y1)) ∨
    ((driver_framebuffer_line x0 y0 x1 y1).head? = some (x1, y1) ∧
     (driver_framebuffer_line x0 y0 x1 y1).getLast? = some (x0, y0)) := by
  obtain ⟨a0, b0, a1, b1, hcanon, hle, hmax, hdy, hmin, hends⟩ := lineCanon_spec x0 y0 x1 y1
  have hraw : ∀ ystep : Int, ystep = (if b0 < b1 then (1 : Int) else -1) →
      (bres (a1 - a0) ((b1 - b0).natAbs) ystep (a1 - a0 + 1).toNat a0 b0 ((a1 - a0) / 2)).head?
        = some (a0, b0) ∧
      (bres (a1 - a0) ((b1 - b0).natAbs) ystep (a1 - a0 + 1).toNat a0 b0 ((a1 - a0) / 2)).getLast?
        = some (a1, b1) := by
    intro ystep hy
    rcases eq_or_lt_of_le hle with heq | hlt
    · have hb : b0 = b1 := by omega
      subst heq; subst hb
      rw [show (a0 - a0 + 1).toNat = 0 + 1 by omega]
      refine ⟨bres_head _ _ _ _ _ _ _, ?_⟩
      simp [bres]
    · rw [show (a1 - a0 + 1).toNat = (a1 - a0 - 1).toNat + 1 + 1 by omega]
      refine ⟨bres_head _ _ _ _ _ _ _, ?_⟩
      rw [bres_getLast _ _ _ (by omega) (by omega) (by omega) _ a0 b0 _ (by omega) (by omega)]
      have hnum : ((((a1 - a0 - 1).toNat + 1 : Nat) : Int)) = a1 - a0 := by omega
      rw [hnum]
      have hr : (0 : Int) ≤ (a1 - a0) - 1 - (a1 - a0) / 2 ∧
          (a1 - a0) - 1 - (a1 - a0) / 2 < a1 - a0 := by omega
      have hyadv : ((a1 - a0) * ((b1 - b0).natAbs : Int) + ((a1 - a0) - 1 - (a1 - a0) / 2))
          / (a1 - a0) = ((b1 - b0).natAbs : Int) := by
        rw [show (a1 - a0) * ((b1 - b0).natAbs : Int) + ((a1 - a0) - 1 - (a1 - a0) / 2)
            = ((a1 - a0) - 1 - (a1 - a0) / 2) + ((b1 - b0).natAbs : Int) * (a1 - a0) by ring,
          Int.add_mul_ediv_right _ _ (by omega),
          Int.ediv_eq_zero_of_lt hr.1 hr.2, zero_add]
      rw [hyadv]
      subst hy
      simp only [Option.some.injEq, Prod.mk.injEq]
      refine ⟨by ring, ?_⟩
      split_ifs with hb <;> omega
  obtain ⟨hh, hl⟩ := hraw _ rfl
  unfold driver_framebuffer_line
  rw [hcanon]
  rcases hsb : steepOf x0 y0 x1 y1 with _ | _
  · simp only [hsb, Bool.false_eq_true, if_false] at hends ⊢
    rcases hends with ⟨h0, h1⟩ | ⟨h0, h1⟩
    · left; rw [← h0, ← h1]; exact ⟨hh, hl⟩
    · right; rw [← h0, ← h1]; exact ⟨hh, hl⟩
  · simp only [hsb, if_true] at hends ⊢
    rw [List.head?_map, List.getLast?_map, hh, hl]
    rcases hends with ⟨h0, h1⟩ | ⟨h0, h1⟩
    · left; rw [← h0, ← h1]; exact ⟨rfl, rfl⟩
    · right; rw [← h0, ← h1]; exact ⟨rfl, rfl⟩

/-! ## Triangle (`driver_framebuffer_triangle`)

The `double` arithmetic of the triangle rasterizer is modelled exactly
over `ℚ`.  A C cast `(int)` of a floating value truncates toward zero.
In C a division whose divisor is zero yields an infinity or NaN; over
`ℚ` it yields `0`.  The divisors actually used are shown to be nonzero
in every theorem proved about non-degenerate triangles, and the
degenerate cases are treated by the dedicated claims. -/

/-- Truncation toward zero: the C cast `(int)` applied to a double. -/
def trunc (q : ℚ) : Int := if q < 0 then -⌊-q⌋ else ⌊q⌋

theorem trunc_mono {p q : ℚ} (h : p ≤ q) : trunc p ≤ trunc q := by
  unfold trunc
  split_ifs with hp hq hq
  · have : -q ≤ -p := by linarith
    have := Int.floor_le_floor this
    omega
  · have h1 : -⌊-p⌋ ≤ 0 := by
      have hpos : ((0 : Int) : ℚ) ≤ -p := by push_cast; linarith
      have := Int.le_floor.mpr hpos
      omega
    have h2 : 0 ≤ ⌊q⌋ := Int.le_floor.mpr (by exact_mod_cast not_lt.mp hq)
    omega
  · exact absurd (lt_of_le_of_lt h hq) hp
  · exact Int.floor_le_floor h

theorem trunc_le (q : ℚ) : (trunc q : ℚ) ≤ q ∨ (q < 0 ∧ (trunc q : ℚ) < q + 1) := by
  unfold trunc
  split_ifs with h
  · right
    refine ⟨h, ?_⟩
    have := Int.floor_le (-q)
    push_cast
    have h2 := Int.lt_floor_add_one (-q)
    push_cast at h2
    linarith
  · left
    exact Int.floor_le q

theorem le_trunc_of_le {n : Int} {q : ℚ} (h : (n : ℚ) ≤ q) : n ≤ trunc q := by
  unfold trunc
  split_ifs with hq
  · have hfl := Int.lt_floor_add_one (-q)
    have : (n : ℚ) ≤ q := h
    have hn : ((-⌊-q⌋ : Int) : ℚ) ≥ q - 0 - 0 - 1 + 1 - 1 := by
      push_cast
      linarith [Int.floor_le (-q), Int.lt_floor_add_one (-q)]
    -- n ≤ q ≤ ceil q = -⌊-q⌋
    have hceil : q ≤ ((-⌊-q⌋ : Int) : ℚ) := by
      push_cast
      linarith [Int.floor_le (-q)]
    exact_mod_cast le_trans h hceil
  · exact Int.le_floor.mpr h

/-- The six `double` vertex coordinates juggled by
`driver_framebuffer_triangle` (point i at `(xi, yi)`). -/
structure TriVerts where
  x0 : ℚ
  y0 : ℚ
  x1 : ℚ
  y1 : ℚ
  x2 : ℚ
  y2 : ℚ
deriving DecidableEq

/-! The C swaps route the outgoing coordinate through a SINGLE-precision
temporary (`float temp; temp = y0; y0 = y1; y1 = temp;`), so on every
swap that fires, the value written back from `temp` is rounded from
double to float.  The faithful passes below (`sortPass01F` …) take the
double→float rounding as an explicit function `flt : ℚ → ℚ`; the exact
passes (`sortPass01` …) are the `flt = id` instance
(`triSortF_id`) — the ideal the code's own comment
"sort the points such that point 0 is the top" intends.  The narrowing
makes a real difference: see `triangle_sort_float_temp_bug`. -/

/-- `if (y1 < y0) { swap points 1 and 0 }`, the outgoing point routed
through the single-precision temporary: `y0 := y1` exactly,
`y1 := flt(old y0)`, likewise x. -/
def sortPass01F (flt : ℚ → ℚ) (v : TriVerts) : TriVerts :=
  if v.y1 < v.y0 then ⟨v.x1, v.y1, flt v.x0, flt v.y0, v.x2, v.y2⟩ else v

/-- `if (y2 < y1) { swap points 2 and 1 }` through the float temp:
`y1 := y2` exactly, `y2 := flt(old y1)`, likewise x. -/
def sortPass12F (flt : ℚ → ℚ) (v : TriVerts) : TriVerts :=
  if v.y2 < v.y1 then ⟨v.x0, v.y0, v.x2, v.y2, flt v.x1, flt v.y1⟩ else v

/-- `if (y2 < y0) { swap points 2 and 0 }` through the float temp:
`y0 := y2` exactly, `y2 := flt(old y0)`, likewise x. -/
def sortPass02F (flt : ℚ → ℚ) (v : TriVerts) : TriVerts :=
  if v.y2 < v.y0 then ⟨v.x2, v.y2, v.x1, v.y1, flt v.x0, flt v.y0⟩ else v

/-- The four fixed compare-and-swap passes at the head of
`driver_framebuffer_triangle` — swap(1,0); swap(2,1); swap(2,0);
swap(1,0) — with the float-temp rounding `flt` explicit. -/
def triSortF (flt : ℚ → ℚ) (v : TriVerts) : TriVerts :=
  sortPass01F flt (sortPass02F flt (sortPass12F flt (sortPass01F flt v)))

/-- Exact-swap `if (y1 < y0) { swap points 1 and 0 }`
(`sortPass01F` with `flt = id`). -/
def sortPass01 (v : TriVerts) : TriVerts :=
  if v.y1 < v.y0 then ⟨v.x1, v.y1, v.x0, v.y0, v.x2, v.y2⟩ else v

/-- Exact-swap `if (y2 < y1) { swap points 2 and 1 }`
(`sortPass12F` with `flt = id`). -/
def sortPass12 (v : TriVerts) : TriVerts :=
  if v.y2 < v.y1 then ⟨v.x0, v.y0, v.x2, v.y2, v.x1, v.y1⟩ else v

/-- Exact-swap `if (y2 < y0) { swap points 2 and 0 }`
(`sortPass02F` with `flt = id`). -/
def sortPass02 (v : TriVerts) : TriVerts :=
  if v.y2 < v.y0 then ⟨v.x2, v.y2, v.x1, v.y1, v.x0, v.y0⟩ else v

/-- The four compare-and-swap passes with the float-temp rounding
idealized to exact (`triSortF id`); the pixel-level theorems below are
stated over this exact instance. -/
def triSort (v : TriVerts) : TriVerts :=
  sortPass01 (sortPass02 (sortPass12 (sortPass01 v)))

/-- The exact sort is the faithful sort with the identity in place of
the double→float rounding. -/
theorem triSortF_id (v : TriVerts) : triSortF id v = triSort v := rfl

theorem sortPass01_le (v : TriVerts) : (sortPass01 v).y0 ≤ (sortPass01 v).y1 := by
  unfold sortPass01; split_ifs <;> (try dsimp only) <;> linarith

theorem sortPass12_spec (v : TriVerts) (h : v.y0 ≤ v.y1) :
    (sortPass12 v).y0 ≤ (sortPass12 v).y2 ∧ (sortPass12 v).y1 ≤ (sortPass12 v).y2 := by
  unfold sortPass12; split_ifs <;> (try dsimp only) <;> constructor <;> linarith

theorem sortPass02_spec (v : TriVerts) (h1 : v.y0 ≤ v.y2) (h2 : v.y1 ≤ v.y2) :
    (sortPass02 v).y0 ≤ (sortPass02 v).y2 ∧ (sortPass02 v).y1 ≤ (sortPass02 v).y2 := by
  unfold sortPass02; split_ifs <;> (try dsimp only) <;> constructor <;> linarith

theorem sortPass01_spec2 (v : TriVerts) (h1 : v.y0 ≤ v.y2) (h2 : v.y1 ≤ v.y2) :
    (sortPass01 v).y0 ≤ (sortPass01 v).y1 ∧ (sortPass01 v).y1 ≤ (sortPass01 v).y2 := by
  unfold sortPass01; split_ifs <;> (try dsimp only) <;> constructor <;> linarith

/-- The four compare-and-swap passes leave the y coordinates in
ascending order (exact arithmetic). -/
theorem triSort_sorted (v : TriVerts) :
    (triSort v).y0 ≤ (triSort v).y1 ∧ (triSort v).y1 ≤ (triSort v).y2 := by
  unfold triSort
  have h1 := sortPass01_le v
  have h2 := sortPass12_spec _ h1
  have h3 := sortPass02_spec _ h2.1 h2.2
  exact sortPass01_spec2 _ h3.1 h3.2

theorem sortPass01_min_max (v : TriVerts) :
    min (sortPass01 v).y0 (min (sortPass01 v).y1 (sortPass01 v).y2) =
      min v.y0 (min v.y1 v.y2) ∧
    max (sortPass01 v).y0 (max (sortPass01 v).y1 (sortPass01 v).y2) =
      max v.y0 (max v.y1 v.y2) := by
  unfold sortPass01
  split_ifs <;> (try dsimp only) <;> constructor <;>
    simp [min_comm, min_left_comm, max_comm, max_left_comm]

theorem sortPass12_min_max (v : TriVerts) :
    min (sortPass12 v).y0 (min (sortPass12 v).y1 (sortPass12 v).y2) =
      min v.y0 (min v.y1 v.y2) ∧
    max (sortPass12 v).y0 (max (sortPass12 v).y1 (sortPass12 v).y2) =
      max v.y0 (max v.y1 v.y2) := by
  unfold sortPass12
  split_ifs <;> (try dsimp only) <;> constructor <;>
    simp [min_comm, min_left_comm, max_comm, max_left_comm]

theorem sortPass02_min_max (v : TriVerts) :
    min (sortPass02 v).y0 (min (sortPass02 v).y1 (sortPass02 v).y2) =
      min v.y0 (min v.y1 v.y2) ∧
    max (sortPass02 v).y0 (max (sortPass02 v).y1 (sortPass02 v).y2) =
      max v.y0 (max v.y1 v.y2) := by
  unfold sortPass02
  split_ifs <;> (try dsimp only) <;> constructor <;>
    simp [min_comm, min_left_comm, max_comm, max_left_comm]

/-- The sorted top y is the minimum input y and the sorted bottom y is
the maximum input y. -/
theorem triSort_min_max (v : TriVerts) :
    (triSort v).y0 = min v.y0 (min v.y1 v.y2) ∧
    (triSort v).y2 = max v.y0 (max v.y1 v.y2) := by
  have hs := triSort_sorted v
  have e1 := sortPass01_min_max v
  have e2 := sortPass12_min_max (sortPass01 v)
  have e3 := sortPass02_min_max (sortPass12 (sortPass01 v))
  have e4 := sortPass01_min_max (sortPass02 (sortPass12 (sortPass01 v)))
  unfold triSort at hs ⊢
  constructor
  · rw [← e1.1, ← e2.1, ← e3.1, ← e4.1]
    rw [min_eq_left (le_min hs.1 (le_trans hs.1 hs.2))]
  · rw [← e1.2, ← e2.2, ← e3.2, ← e4.2]
    rw [max_eq_right hs.2, max_eq_right (le_trans hs.1 hs.2)]

/-- `nSteps` of the upper sub-triangle: `(int)(yDist + 0.9999)`. -/
def upperSteps (v : TriVerts) : Int := trunc (v.y1 - v.y0 + 9999/10000)

/-- `xMiddle`: x of the long edge p0→p2 at the level of p1. -/
def xMiddle (v : TriVerts) : ℚ := v.x0 + (v.x2 - v.x0) / (v.y2 - v.y0) * (v.y1 - v.y0)

/-- Row y of upper scan step `i`: `(int)(y0 + yStep * i + 0.5)`. -/
def upperRowY (v : TriVerts) (i : Nat) : Int :=
  trunc (v.y0 + (v.y1 - v.y0) / (upperSteps v : ℚ) * i + 1/2)

/-- First boundary column of upper scan step `i`:
`(int)(x0 + xStep0 * i + 0.5)` with `xStep0 = (xMiddle - x0) / nSteps`. -/
def upperXC0 (v : TriVerts) (i : Nat) : Int :=
  trunc (v.x0 + (xMiddle v - v.x0) / (upperSteps v : ℚ) * i + 1/2)

/-- Second boundary column of upper scan step `i`:
`(int)(x0 + xStep1 * i + 0.5)` with `xStep1 = (x1 - x0) / nSteps`. -/
def upperXC1 (v : TriVerts) (i : Nat) : Int :=
  trunc (v.x0 + (v.x1 - v.x0) / (upperSteps v : ℚ) * i + 1/2)

/-- `nSteps` of the lower sub-triangle: `(int)(yDist + 0.9999)`. -/
def lowerSteps (v : TriVerts) : Int := trunc (v.y2 - v.y1 + 9999/10000)

/-- Row y of lower scan step `i`; note the seam-avoidance `+ 0.01`
added to the y step. -/
def lowerRowY (v : TriVerts) (i : Nat) : Int :=
  trunc (v.y1 + ((v.y2 - v.y1) / (lowerSteps v : ℚ) + 1/100) * i + 1/2)

/-- First boundary column of lower scan step `i`. -/
def lowerXC0 (v : TriVerts) (i : Nat) : Int :=
  trunc (xMiddle v + (v.x2 - xMiddle v) / (lowerSteps v : ℚ) * i + 1/2)

/-- Second boundary column of lower scan step `i`. -/
def lowerXC1 (v : TriVerts) (i : Nat) : Int :=
  trunc (v.x1 + (v.x2 - v.x1) / (lowerSteps v : ℚ) * i + 1/2)

/-- The inner span loop of the triangle rasterizer:
`nXSteps = xC0 - xC1; xStepMult = -1; if (nXSteps < 0) { negate both };
for (j = 0; j < nXSteps; j++) setPixel(xC0 + j * xStepMult, y)`. -/
def rowPixels (y xC0 xC1 : Int) : List Pixel :=
  (List.range (xC0 - xC1).natAbs).map
    (fun (j : Nat) => (xC0 + (j : Int) * (if xC0 - xC1 < 0 then 1 else -1), y))

/-- `driver_framebuffer_triangle window x0 y0 x1 y1 x2 y2 color`, as the
list of positions passed to `setPixel`. -/
def driver_framebuffer_triangle (x0 y0 x1 y1 x2 y2 : ℚ) : List Pixel :=
  let v := triSort ⟨x0, y0, x1, y1, x2, y2⟩
  ((List.range (upperSteps v).toNat).map
      (fun i => rowPixels (upperRowY v i) (upperXC0 v i) (upperXC1 v i))).flatten ++
  ((List.range (lowerSteps v).toNat).map
      (fun i => rowPixels (lowerRowY v i) (lowerXC0 v i) (lowerXC1 v i))).flatten

/-- C4 is the code's intent but the code misses it (code bug): the four
compare-and-swap passes swap *doubles* through a single-precision
`float temp`, so every swap rounds the outgoing coordinate to float,
and the ordering phase can end NOT ascending.  Failing input: vertex ys
`(2, 1 + 2⁻³⁰, 1 + 2⁻⁴⁰)` (xs `0, 1, 2`).  Trace: pass 1 swaps
(temp holds 2, exact in float), pass 2 swaps (temp holds 2), pass 3
does not fire, pass 4 swaps and its temp holds `y0 = 1 + 2⁻³⁰`, which
binary32 rounds to `1.0f` (the unit in the last place at exponent 0 is
`2⁻²³`, and `2⁻³⁰` is far below half of it), ending with
`y0 = 1 + 2⁻⁴⁰ > y1 = 1`.  `flt` is the double→float rounding, pinned
by the hypotheses at exactly the two values this trace routes through
the temporary: binary32 represents `2` exactly and rounds `1 + 2⁻³⁰`
down to `1`. -/
theorem triangle_sort_float_temp_bug (flt : ℚ → ℚ)
    (h2 : flt 2 = 2) (h30 : flt (1 + 1/2^30) = 1) :
    (triSortF flt ⟨0, 2, 1, 1 + 1/2^30, 2, 1 + 1/2^40⟩).y1 <
    (triSortF flt ⟨0, 2, 1, 1 + 1/2^30, 2, 1 + 1/2^40⟩).y0 := by
  unfold triSortF sortPass01F sortPass12F sortPass02F
  norm_num [h2]
  rw [show (1073741825 / 1073741824 : ℚ) = 1 + 1/2^30 by norm_num, h30]
  norm_num

/-- Closed witness for `triangle_sort_float_temp_bug`: a rounding
function satisfying the two pinned binary32 values. -/
theorem triangle_sort_float_temp_bug_witness :
    (fun q : ℚ => if q = 1 + 1/2^30 then 1 else q) 2 = 2 ∧
    (fun q : ℚ => if q = 1 + 1/2^30 then 1 else q) (1 + 1/2^30) = 1 ∧
    (triSortF (fun q : ℚ => if q = 1 + 1/2^30 then 1 else q)
        ⟨0, 2, 1, 1 + 1/2^30, 2, 1 + 1/2^40⟩).y1 <
    (triSortF (fun q : ℚ => if q = 1 + 1/2^30 then 1 else q)
        ⟨0, 2, 1, 1 + 1/2^30, 2, 1 + 1/2^40⟩).y0 :=
  ⟨by norm_num, by norm_num,
   triangle_sort_float_temp_bug _ (by norm_num) (by norm_num)⟩

/-- C10: a Triangle call whose three vertices share one y coordinate
plots no pixel: both scan step counts are `(int)(0 + 0.9999) = 0`, so
both scanline loops run zero iterations. -/
theorem triangle_flat_plots_nothing (x0 x1 x2 y : ℚ) :
    driver_framebuffer_triangle x0 y x1 y x2 y = [] := by
  have hv : triSort ⟨x0, y, x1, y, x2, y⟩ = ⟨x0, y, x1, y, x2, y⟩ := by
    unfold triSort sortPass01 sortPass12 sortPass02
    simp
  have h0 : trunc (y - y + 9999 / 10000) = 0 := by
    rw [sub_self, zero_add]
    unfold trunc
    rw [if_neg (by norm_num)]
    norm_num
  have hup : upperSteps (⟨x0, y, x1, y, x2, y⟩ : TriVerts) = 0 := h0
  have hlo : lowerSteps (⟨x0, y, x1, y, x2, y⟩ : TriVerts) = 0 := h0
  simp only [driver_framebuffer_triangle, hv, hup, hlo]
  rfl

/-- C9: there are degenerate Triangle inputs — here three vertices on one
horizontal line, so that vertices share y coordinates and are colinear —
for which every divisor used by the scanline setup is zero: the upper and
lower step counts `nSteps` (divisor of `yStep`, `xStep0`, `xStep1`) are
`0` and `y2 - y0` (divisor in `xMiddle`) is `0`.  The code computes these
quotients unconditionally before its loops and contains no guard against
the zero divisor. -/
theorem triangle_division_by_zero_unguarded :
    ∃ x0 y0 x1 y1 x2 y2 : ℚ,
      (y0 = y1 ∨ y1 = y2 ∨ y0 = y2) ∧
      upperSteps (triSort ⟨x0, y0, x1, y1, x2, y2⟩) = 0 ∧
      (triSort ⟨x0, y0, x1, y1, x2, y2⟩).y2 - (triSort ⟨x0, y0, x1, y1, x2, y2⟩).y0 = 0 ∧
      lowerSteps (triSort ⟨x0, y0, x1, y1, x2, y2⟩) = 0 := by
  refine ⟨0, 0, 1, 0, 2, 0, Or.inl rfl, ?_, ?_, ?_⟩ <;>
    norm_num [triSort, sortPass01, sortPass12, sortPass02, upperSteps, lowerSteps, trunc]

/-- C1 fails on the code: in the triangle with vertices (0,0), (0,5),
(0,10) the upper sub-triangle has five scan rows and on each of them the
two boundary columns coincide (`xC0 = xC1 = 0`), yet the call plots no
pixel at all — a row whose boundary columns coincide plots nothing, so
the horizontal span is not a closed interval. -/
theorem triangle_span_closed_counterexample :
    upperSteps (triSort ⟨0, 0, 0, 5, 0, 10⟩) = 5 ∧
    upperXC0 (triSort ⟨0, 0, 0, 5, 0, 10⟩) 0 = upperXC1 (triSort ⟨0, 0, 0, 5, 0, 10⟩) 0 ∧
    driver_framebuffer_triangle 0 0 0 5 0 10 = [] := by
  refine ⟨?_, ?_, ?_⟩ <;>
    norm_num [driver_framebuffer_triangle, triSort, sortPass01, sortPass12, sortPass02,
      upperSteps, lowerSteps, upperRowY, upperXC0, upperXC1, lowerRowY, lowerXC0, lowerXC1,
      xMiddle, rowPixels, trunc, List.range_succ]

/-- Membership in a triangle scan row, unfolded. -/
theorem mem_rowPixels {y xC0 xC1 : Int} {p : Pixel} :
    p ∈ rowPixels y xC0 xC1 ↔
      ∃ j : Nat, j < (xC0 - xC1).natAbs ∧
        p = (xC0 + (j : Int) * (if xC0 - xC1 < 0 then 1 else -1), y) := by
  unfold rowPixels
  constructor
  · intro h
    rcases List.mem_map.mp h with ⟨j, hj, rfl⟩
    exact ⟨j, List.mem_range.mp hj, rfl⟩
  · rintro ⟨j, hj, rfl⟩
    exact List.mem_map.mpr ⟨j, List.mem_range.mpr hj, rfl⟩

/-- C1 amended: the horizontal span plotted on every scan row of both
sub-triangles is the half-open interval from `xC0` (always included when
the boundaries differ) toward `xC1` (always excluded); a row whose two
boundary columns coincide plots no pixel. -/
theorem triangle_span_half_open (y xC0 xC1 px py : Int) :
    (px, py) ∈ rowPixels y xC0 xC1 ↔
      py = y ∧ ((xC1 < px ∧ px ≤ xC0) ∨ (xC0 ≤ px ∧ px < xC1)) := by
  rw [mem_rowPixels]
  constructor
  · rintro ⟨j, hj, hp⟩
    rw [Prod.mk.injEq] at hp
    obtain ⟨hx, hy⟩ := hp
    refine ⟨hy, ?_⟩
    by_cases hlt : xC0 - xC1 < 0
    · rw [if_pos hlt] at hx; omega
    · rw [if_neg hlt] at hx; omega
  · rintro ⟨hy, hcase⟩
    by_cases hlt : xC0 - xC1 < 0
    · refine ⟨(px - xC0).toNat, by omega, ?_⟩
      rw [Prod.mk.injEq, if_pos hlt]
      exact ⟨by omega, hy⟩
    · refine ⟨(xC0 - px).toNat, by omega, ?_⟩
      rw [Prod.mk.injEq, if_neg hlt]
      exact ⟨by omega, hy⟩

theorem trunc_cast_le {q : ℚ} (h : 0 ≤ q) : ((trunc q : Int) : ℚ) ≤ q := by
  unfold trunc
  rw [if_neg (not_lt.mpr h)]
  exact_mod_cast Int.floor_le q

/-- Every row of the upper scan loop lies between `trunc(y0 + 1/2)` and
`trunc(y2 + 1/2)` (rows increase from the top vertex toward the middle
one and never pass it). -/
theorem upperRowY_bounds (v : TriVerts) (hs01 : v.y0 ≤ v.y1) (hs12 : v.y1 ≤ v.y2)
    (i : Nat) (hi : i < (upperSteps v).toNat) :
    trunc (v.y0 + 1/2) ≤ upperRowY v i ∧ upperRowY v i ≤ trunc (v.y2 + 1/2) := by
  have hn : 0 < upperSteps v := by omega
  have hc1 : (1 : ℚ) ≤ ((upperSteps v : Int) : ℚ) := by exact_mod_cast hn
  have hc0 : ((upperSteps v : Int) : ℚ) ≠ 0 := ne_of_gt (by linarith)
  have hd : (0 : ℚ) ≤ v.y1 - v.y0 := by linarith
  have hiq : (i : ℚ) + 1 ≤ ((upperSteps v : Int) : ℚ) := by
    have : (i : Int) + 1 ≤ upperSteps v := by omega
    exact_mod_cast this
  have hstep : (0 : ℚ) ≤ (v.y1 - v.y0) / ((upperSteps v : Int) : ℚ) :=
    div_nonneg hd (by linarith)
  have hterm0 : (0 : ℚ) ≤ (v.y1 - v.y0) / ((upperSteps v : Int) : ℚ) * i :=
    mul_nonneg hstep (by positivity)
  have hterm1 : (v.y1 - v.y0) / ((upperSteps v : Int) : ℚ) * i ≤ v.y1 - v.y0 := by
    have h1 : (v.y1 - v.y0) / ((upperSteps v : Int) : ℚ) * i ≤
        (v.y1 - v.y0) / ((upperSteps v : Int) : ℚ) * ((upperSteps v : Int) : ℚ) :=
      mul_le_mul_of_nonneg_left (by linarith) hstep
    rwa [div_mul_cancel₀ _ hc0] at h1
  constructor
  · unfold upperRowY
    exact trunc_mono (by linarith)
  · unfold upperRowY
    exact trunc_mono (by linarith)

/-- Every row of the lower scan loop lies between `trunc(y0 + 1/2)` and
`trunc(y2 + 1/2)`, provided the lower step count is at most 100 (so that
the `+ 0.01` seam epsilon cannot push the last rows past the bottom
vertex row). -/
theorem lowerRowY_bounds (v : TriVerts) (hs01 : v.y0 ≤ v.y1) (hs12 : v.y1 ≤ v.y2)
    (hcap : lowerSteps v ≤ 100) (i : Nat) (hi : i < (lowerSteps v).toNat) :
    trunc (v.y0 + 1/2) ≤ lowerRowY v i ∧ lowerRowY v i ≤ trunc (v.y2 + 1/2) := by
  have hn : 0 < lowerSteps v := by omega
  have hc1 : (1 : ℚ) ≤ ((lowerSteps v : Int) : ℚ) := by exact_mod_cast hn
  have hc100 : ((lowerSteps v : Int) : ℚ) ≤ 100 := by exact_mod_cast hcap
  have hc0 : ((lowerSteps v : Int) : ℚ) ≠ 0 := ne_of_gt (by linarith)
  have hd : (0 : ℚ) ≤ v.y2 - v.y1 := by linarith
  have hcle : ((lowerSteps v : Int) : ℚ) ≤ (v.y2 - v.y1) + 9999 / 10000 :=
    trunc_cast_le (by linarith)
  have hdgt : ((lowerSteps v : Int) : ℚ) - 1 < v.y2 - v.y1 := by linarith
  have hiq : (i : ℚ) + 1 ≤ ((lowerSteps v : Int) : ℚ) := by
    have : (i : Int) + 1 ≤ lowerSteps v := by omega
    exact_mod_cast this
  have hstep : (0 : ℚ) ≤ (v.y2 - v.y1) / ((lowerSteps v : Int) : ℚ) + 1 / 100 := by
    have := div_nonneg hd (show (0:ℚ) ≤ ((lowerSteps v : Int) : ℚ) by linarith)
    linarith
  have hterm0 : (0 : ℚ) ≤ ((v.y2 - v.y1) / ((lowerSteps v : Int) : ℚ) + 1 / 100) * i :=
    mul_nonneg hstep (by positivity)
  have hkey : (((lowerSteps v : Int) : ℚ) - 1) / 100 ≤
      (v.y2 - v.y1) / ((lowerSteps v : Int) : ℚ) := by
    rw [div_le_div_iff₀ (by norm_num) (by linarith)]
    have hprod : (((lowerSteps v : Int) : ℚ) - 1) * (((lowerSteps v : Int) : ℚ) - 100) ≤ 0 :=
      mul_nonpos_iff.mpr (Or.inl ⟨by linarith, by linarith⟩)
    nlinarith [hdgt, hprod]
  have hterm1 : ((v.y2 - v.y1) / ((lowerSteps v : Int) : ℚ) + 1 / 100) * i ≤
      v.y2 - v.y1 := by
    have h1 : ((v.y2 - v.y1) / ((lowerSteps v : Int) : ℚ) + 1 / 100) * i ≤
        ((v.y2 - v.y1) / ((lowerSteps v : Int) : ℚ) + 1 / 100) *
          (((lowerSteps v : Int) : ℚ) - 1) :=
      mul_le_mul_of_nonneg_left (by linarith) hstep
    have h2 : ((v.y2 - v.y1) / ((lowerSteps v : Int) : ℚ) + 1 / 100) *
        (((lowerSteps v : Int) : ℚ) - 1) =
        (v.y2 - v.y1) - (v.y2 - v.y1) / ((lowerSteps v : Int) : ℚ) +
          (((lowerSteps v : Int) : ℚ) - 1) / 100 := by
      field_simp
      ring
    rw [h2] at h1
    linarith [hkey]
  constructor
  · unfold lowerRowY
    exact trunc_mono (by linarith)
  · unfold lowerRowY
    exact trunc_mono (by linarith)

/-- Every pixel plotted by the triangle rasterizer lies on some upper or
lower scan row. -/
theorem mem_triangle_rows {x0 y0 x1 y1 x2 y2 : ℚ} {p : Pixel}
    (hp : p ∈ driver_framebuffer_triangle x0 y0 x1 y1 x2 y2) :
    (∃ i, i < (upperSteps (triSort ⟨x0, y0, x1, y1, x2, y2⟩)).toNat ∧
        p.2 = upperRowY (triSort ⟨x0, y0, x1, y1, x2, y2⟩) i) ∨
    (∃ i, i < (lowerSteps (triSort ⟨x0, y0, x1, y1, x2, y2⟩)).toNat ∧
        p.2 = lowerRowY (triSort ⟨x0, y0, x1, y1, x2, y2⟩) i) := by
  simp only [driver_framebuffer_triangle, List.mem_append, List.mem_flatten,
    List.mem_map] at hp
  rcases hp with ⟨l, ⟨i, hi, rfl⟩, hpl⟩ | ⟨l, ⟨i, hi, rfl⟩, hpl⟩
  · left
    rcases mem_rowPixels.mp hpl with ⟨j, hj, rfl⟩
    exact ⟨i, List.mem_range.mp hi, rfl⟩
  · right
    rcases mem_rowPixels.mp hpl with ⟨j, hj, rfl⟩
    exact ⟨i, List.mem_range.mp hi, rfl⟩

/-- C5 amended: every plotted pixel's row lies between
`trunc(ytop + 1/2)` and `trunc(ybottom + 1/2)` (the code's rounding of
the topmost and bottommost vertex y), provided the lower sub-triangle's
scan step count is at most 100; no non-degeneracy hypothesis is needed
(degenerate spans simply plot no rows), but the cap is: for lower parts
taller than about 100 rows the `+ 0.01` y-step epsilon pushes the last
rows below the bottom vertex, and for fractional vertex ys the first
plotted row can lie above the topmost vertex y itself, as the
counterexample shows. -/
theorem triangle_rows_bounded (x0 y0 x1 y1 x2 y2 : ℚ)
    (hcap : lowerSteps (triSort ⟨x0, y0, x1, y1, x2, y2⟩) ≤ 100) :
    ∀ p ∈ driver_framebuffer_triangle x0 y0 x1 y1 x2 y2,
      trunc (min y0 (min y1 y2) + 1/2) ≤ p.2 ∧
      p.2 ≤ trunc (max y0 (max y1 y2) + 1/2) := by
  intro p hp
  have hs := triSort_sorted ⟨x0, y0, x1, y1, x2, y2⟩
  have hmm := triSort_min_max ⟨x0, y0, x1, y1, x2, y2⟩
  rw [← hmm.1, ← hmm.2]
  rcases mem_triangle_rows hp with ⟨i, hi, hrow⟩ | ⟨i, hi, hrow⟩
  · rw [hrow]
    exact upperRowY_bounds _ hs.1 hs.2 i hi
  · rw [hrow]
    exact lowerRowY_bounds _ hs.1 hs.2 hcap i hi

/-- Closed witness for `triangle_rows_bounded` at the triangle
(0,0), (5,1), (3,2). -/
theorem triangle_rows_bounded_witness :
    lowerSteps (triSort ⟨0, 0, 5, 1, 3, 2⟩) ≤ 100 ∧
    ∀ p ∈ driver_framebuffer_triangle 0 0 5 1 3 2,
      trunc (min 0 (min 1 2) + 1/2) ≤ p.2 ∧
      p.2 ≤ trunc (max 0 (max 1 2) + 1/2) :=
  ⟨by norm_num [triSort, sortPass01, sortPass12, sortPass02, lowerSteps, trunc],
   triangle_rows_bounded 0 0 5 1 3 2
     (by norm_num [triSort, sortPass01, sortPass12, sortPass02, lowerSteps, trunc])⟩

/-- C5 fails on the code as stated: the triangle (0, 3/10), (5, 2/5),
(17, 2) is non-degenerate (pairwise distinct vertex ys, vertices not
colinear — the edge cross product is nonzero), yet it plots the pixel
(1, 0), and row 0 lies strictly above the topmost vertex y = 3/10, so
not every plotted row is between the topmost and bottommost vertex y
inclusive. -/
theorem triangle_rows_in_bounds_counterexample :
    ((3 : ℚ)/10 ≠ 2/5 ∧ (2 : ℚ)/5 ≠ 2 ∧ (3 : ℚ)/10 ≠ 2) ∧
    (5 - 0) * (2 - 3/10) - (17 - 0) * ((2 : ℚ)/5 - 3/10) ≠ 0 ∧
    ((1 : Int), (0 : Int)) ∈ driver_framebuffer_triangle 0 (3/10) 5 (2/5) 17 2 ∧
    ¬((3 : ℚ)/10 ≤ ((0 : Int) : ℚ)) := by
  refine ⟨⟨by norm_num, by norm_num, by norm_num⟩, by norm_num, ?_, by norm_num⟩
  have hv : triSort ⟨0, 3/10, 5, 2/5, 17, 2⟩ = ⟨0, 3/10, 5, 2/5, 17, 2⟩ := by
    unfold triSort sortPass01 sortPass12 sortPass02
    norm_num
  simp only [driver_framebuffer_triangle, hv]
  refine List.mem_append.mpr (Or.inr ?_)
  refine List.mem_flatten.mpr
    ⟨rowPixels (lowerRowY ⟨0, 3/10, 5, 2/5, 17, 2⟩ 0) (lowerXC0 ⟨0, 3/10, 5, 2/5, 17, 2⟩ 0)
      (lowerXC1 ⟨0, 3/10, 5, 2/5, 17, 2⟩ 0), ?_, ?_⟩
  · refine List.mem_map.mpr ⟨0, List.mem_range.mpr ?_, rfl⟩
    norm_num [lowerSteps, trunc]
  · refine mem_rowPixels.mpr ⟨0, ?_, ?_⟩
    · norm_num [lowerXC0, lowerXC1, lowerSteps, xMiddle, trunc]
    · norm_num [lowerXC0, lowerXC1, lowerRowY, lowerSteps, xMiddle, trunc]

/-! ## Quad (`driver_framebuffer_quad`) -/

/-- `driver_framebuffer_quad window x0 y0 x1 y1 x2 y2 x3 y3 color`: four
Triangle calls, in source order — (p0,p1,p2), (p1,p3,p2), then the second
pairing (p0,p1,p3), (p1,p2,p3). -/
def driver_framebuffer_quad (x0 y0 x1 y1 x2 y2 x3 y3 : ℚ) : List Pixel :=
  driver_framebuffer_triangle x0 y0 x1 y1 x2 y2 ++
  driver_framebuffer_triangle x1 y1 x3 y3 x2 y2 ++
  driver_framebuffer_triangle x0 y0 x1 y1 x3 y3 ++
  driver_framebuffer_triangle x1 y1 x2 y2 x3 y3

/-- Modelled from the spec (the claim's reading, for refinement
comparison only): the quad as the union of the two triangles of one
diagonal decomposition of the p0→p1→p2→p3 winding (diagonal p0–p2:
triangles p0p1p2 and p0p2p3) and the two of the other diagonal
decomposition (diagonal p1–p3: triangles p0p1p3 and p1p2p3). -/
def quadPixelsSpec (x0 y0 x1 y1 x2 y2 x3 y3 : ℚ) : List Pixel :=
  driver_framebuffer_triangle x0 y0 x1 y1 x2 y2 ++
  driver_framebuffer_triangle x0 y0 x2 y2 x3 y3 ++
  driver_framebuffer_triangle x0 y0 x1 y1 x3 y3 ++
  driver_framebuffer_triangle x1 y1 x2 y2 x3 y3

theorem tri_eval_012 : driver_framebuffer_triangle 0 0 4 0 4 4 =
    [(0,0),(1,0),(2,0),(3,0),(1,1),(2,1),(3,1),(2,2),(3,2),(3,3)] := by
  norm_num [driver_framebuffer_triangle, triSort, sortPass01, sortPass12, sortPass02,
    upperSteps, lowerSteps, upperRowY, upperXC0, upperXC1, lowerRowY, lowerXC0, lowerXC1,
    xMiddle, rowPixels, trunc, List.range_succ,
    show Int.toNat 0 = 0 from rfl, show Int.toNat 4 = 4 from rfl]

theorem tri_eval_132 : driver_framebuffer_triangle 4 0 0 4 4 4 =
    [(4,1),(4,2),(3,2),(4,3),(3,3),(2,3)] := by
  norm_num [driver_framebuffer_triangle, triSort, sortPass01, sortPass12, sortPass02,
    upperSteps, lowerSteps, upperRowY, upperXC0, upperXC1, lowerRowY, lowerXC0, lowerXC1,
    xMiddle, rowPixels, trunc, List.range_succ,
    show Int.toNat 0 = 0 from rfl, show Int.toNat 4 = 4 from rfl]

theorem tri_eval_023 : driver_framebuffer_triangle 0 0 4 4 0 4 =
    [(0,1),(0,2),(1,2),(0,3),(1,3),(2,3)] := by
  norm_num [driver_framebuffer_triangle, triSort, sortPass01, sortPass12, sortPass02,
    upperSteps, lowerSteps, upperRowY, upperXC0, upperXC1, lowerRowY, lowerXC0, lowerXC1,
    xMiddle, rowPixels, trunc, List.range_succ,
    show Int.toNat 0 = 0 from rfl, show Int.toNat 4 = 4 from rfl]

theorem tri_eval_013 : driver_framebuffer_triangle 0 0 4 0 0 4 =
    [(0,0),(1,0),(2,0),(3,0),(0,1),(1,1),(2,1),(0,2),(1,2),(0,3)] := by
  norm_num [driver_framebuffer_triangle, triSort, sortPass01, sortPass12, sortPass02,
    upperSteps, lowerSteps, upperRowY, upperXC0, upperXC1, lowerRowY, lowerXC0, lowerXC1,
    xMiddle, rowPixels, trunc, List.range_succ,
    show Int.toNat 0 = 0 from rfl, show Int.toNat 4 = 4 from rfl]

theorem tri_eval_123 : driver_framebuffer_triangle 4 0 4 4 0 4 =
    [(3,1),(2,2),(3,2),(1,3),(2,3),(3,3)] := by
  norm_num [driver_framebuffer_triangle, triSort, sortPass01, sortPass12, sortPass02,
    upperSteps, lowerSteps, upperRowY, upperXC0, upperXC1, lowerRowY, lowerXC0, lowerXC1,
    xMiddle, rowPixels, trunc, List.range_succ,
    show Int.toNat 0 = 0 from rfl, show Int.toNat 4 = 4 from rfl]

/-- C6 fails on the code: on the axis-aligned square quad
(0,0) → (4,0) → (4,4) → (0,4), the code plots the pixel (4,1) — it comes
from the second Triangle call (p1,p3,p2), whose triangle shares the quad
edge p1–p2, not a diagonal — while the union of the two diagonal
decompositions of that winding (p0p1p2 ∪ p0p2p3 and p0p1p3 ∪ p1p2p3)
does not contain (4,1), so the two pixel sets differ. -/
theorem quad_diagonal_union_counterexample :
    ((4 : Int), (1 : Int)) ∈ driver_framebuffer_quad 0 0 4 0 4 4 0 4 ∧
    ((4 : Int), (1 : Int)) ∉ quadPixelsSpec 0 0 4 0 4 4 0 4 := by
  constructor
  · unfold driver_framebuffer_quad
    rw [tri_eval_012, tri_eval_132, tri_eval_013, tri_eval_123]
    decide
  · unfold quadPixelsSpec
    rw [tri_eval_012, tri_eval_023, tri_eval_013, tri_eval_123]
    decide

/-- C6 amended: the quad's plotted pixel set is the union of the pixel
sets of exactly the four Triangle calls the code makes — (p0,p1,p2),
(p1,p3,p2), (p0,p1,p3), (p1,p2,p3).  The first pair shares the quad edge
p1–p2 of the stated p0→p1→p2→p3 winding (not a diagonal), so this union
is not in general the union of the quad's two diagonal decompositions. -/
theorem quad_union_of_code_triangles (x0 y0 x1 y1 x2 y2 x3 y3 : ℚ) (p : Pixel) :
    p ∈ driver_framebuffer_quad x0 y0 x1 y1 x2 y2 x3 y3 ↔
      p ∈ driver_framebuffer_triangle x0 y0 x1 y1 x2 y2 ∨
      p ∈ driver_framebuffer_triangle x1 y1 x3 y3 x2 y2 ∨
      p ∈ driver_framebuffer_triangle x0 y0 x1 y1 x3 y3 ∨
      p ∈ driver_framebuffer_triangle x1 y1 x2 y2 x3 y3 := by
  unfold driver_framebuffer_quad
  simp only [List.mem_append, or_assoc]

/-! ## Rectangle (`driver_framebuffer_rect`) -/

/-- `driver_framebuffer_rect window x y w h fill color`: filled mode
draws one vertical line per column `i ∈ [x, x+w)`, outline mode draws
the four border lines. -/
def driver_framebuffer_rect (x y : Int) (w h : Nat) (fill : Bool) : List Pixel :=
  if fill then
    ((List.range w).map
      (fun (i : Nat) =>
        driver_framebuffer_line (x + i) y (x + i) (y + h - 1))).flatten
  else
    driver_framebuffer_line x y (x + w - 1) y ++
    driver_framebuffer_line x (y + h - 1) (x + w - 1) (y + h - 1) ++
    driver_framebuffer_line x y x (y + h - 1) ++
    driver_framebuffer_line (x + w - 1) y (x + w - 1) (y + h - 1)

/-- C8 fails on the code: a filled rectangle of width 1 and height 0
does plot pixels — the column line degenerates to
`Line(0,0,0,-1)`, whose endpoint ordering swap makes it an inclusive
two-pixel vertical span — and an outline rectangle with zero width and
height plots pixels as well, so zero width/height does not always
collapse to zero pixel writes. -/
theorem rect_zero_size_counterexample :
    driver_framebuffer_rect 0 0 1 0 true = [(0, -1), (0, 0)] ∧
    driver_framebuffer_rect 0 0 1 0 true ≠ [] ∧
    driver_framebuffer_rect 0 0 0 0 false ≠ [] := by
  refine ⟨by decide, by decide, by decide⟩

/-- C8 amended: among the zero-sized rectangles only the filled mode
with `w = 0` plots nothing (its column loop runs zero iterations); a
zero height in fill mode and any zero-sized outline still issue Line
calls whose inclusive endpoint spans plot pixels. -/
theorem rect_fill_zero_width_empty (x y : Int) (h : Nat) :
    driver_framebuffer_rect x y 0 h true = [] := by
  rfl

/-! ## Circle / Arc (`driver_framebuffer_circle`)

The transcendental sampling `px = x0 + f*cos(i·π/180)`,
`py = y0 + f*sin(i·π/180)` (double arithmetic truncated to int) is kept
abstract: `pos f i` stands for the sampled pixel position at radius `f`
and integer degree `i`.  Everything else — the angle sweep, the
previous-pixel state, the choice between a direct `setPixel` and a
bridging `Line`, and the per-radius reset — is modelled from the
source. -/

/-- The inner angle loop of `driver_framebuffer_circle`: walks the
sampled angles carrying the previous sample; plots the sample directly
when there is no previous sample or the position repeats, otherwise
draws a Line from the previous position to the new one. -/
def arcLoop (pos : Nat → Pixel) : List Nat → Option Pixel → List Pixel
  | [], _ => []
  | i :: rest, prev =>
    let p := pos i
    match prev with
    | some q =>
      if p ≠ q then
        driver_framebuffer_line q.1 q.2 p.1 p.2 ++ arcLoop pos rest (some p)
      else
        p :: arcLoop pos rest (some p)
    | none => p :: arcLoop pos rest (some p)

/-- `driver_framebuffer_circle window x0 y0 r startAngle endAngle fill
color`: no-op when `startAngle ≥ endAngle`; otherwise one angle sweep
per radius `f` (only `f = r` when not filling), the previous-pixel state
resetting at the start of each radius pass. -/
def driver_framebuffer_circle (pos : Nat → Nat → Pixel) (r startAngle endAngle : Nat)
    (fill : Bool) : List Pixel :=
  if startAngle ≥ endAngle then []
  else
    ((List.range' (if fill then 0 else r) (r + 1 - (if fill then 0 else r))).map
        (fun f => arcLoop (pos f) (List.range' startAngle (endAngle - startAngle)) none)).flatten

theorem arcLoop_append (pos : Nat → Pixel) (js ks : List Nat) (prev : Option Pixel) :
    arcLoop pos (js ++ ks) prev =
      arcLoop pos js prev ++ arcLoop pos ks (js.foldl (fun _ i => some (pos i)) prev) := by
  induction js generalizing prev with
  | nil => rfl
  | cons i js ih =>
    rw [List.cons_append]
    cases prev with
    | none =>
      show pos i :: arcLoop pos (js ++ ks) (some (pos i)) = _
      rw [ih, List.foldl_cons]
      rfl
    | some q =>
      show (if pos i ≠ q then
          driver_framebuffer_line q.1 q.2 (pos i).1 (pos i).2 ++
            arcLoop pos (js ++ ks) (some (pos i))
        else pos i :: arcLoop pos (js ++ ks) (some (pos i))) = _
      split_ifs with h
      · rw [ih, List.foldl_cons]
        show _ = (if pos i ≠ q then _ else _) ++ _
        rw [if_pos h, List.append_assoc]
      · rw [ih, List.foldl_cons]
        show _ = (if pos i ≠ q then _ else _) ++ _
        rw [if_neg h]
        rfl

set_option maxHeartbeats 1000000 in
/-- The positions the full-circle outline call samples for center
(50,50) and radius 100: entry `i` is
`(50 + (int)(100*cos(i*pi/180)), 50 + (int)(100*sin(i*pi/180)))`
evaluated in IEEE binary64 with the C cast truncating toward zero. -/
def circleSamples100 : List Pixel :=
  [(150, 50), (149, 51), (149, 53), (149, 55), (149, 56), (149, 58),
    (149, 60), (149, 62), (149, 63), (148, 65), (148, 67), (148, 69),
    (147, 70), (147, 72), (147, 74), (146, 75), (146, 77), (145, 79),
    (145, 80), (144, 82), (143, 84), (143, 85), (142, 87), (142, 89),
    (141, 90), (140, 92), (139, 93), (139, 95), (138, 96), (137, 98),
    (136, 100), (135, 101), (134, 102), (133, 104), (132, 105), (131, 107),
    (130, 108), (129, 110), (128, 111), (127, 112), (126, 114), (125, 115),
    (124, 116), (123, 118), (121, 119), (120, 120), (119, 121), (118, 123),
    (116, 124), (115, 125), (114, 126), (112, 127), (111, 128), (110, 129),
    (108, 130), (107, 131), (105, 132), (104, 133), (102, 134), (101, 135),
    (100, 136), (98, 137), (96, 138), (95, 139), (93, 139), (92, 140),
    (90, 141), (89, 142), (87, 142), (85, 143), (84, 143), (82, 144),
    (80, 145), (79, 145), (77, 146), (75, 146), (74, 147), (72, 147),
    (70, 147), (69, 148), (67, 148), (65, 148), (63, 149), (62, 149),
    (60, 149), (58, 149), (56, 149), (55, 149), (53, 149), (51, 149),
    (50, 150), (48, 149), (46, 149), (44, 149), (43, 149), (41, 149),
    (39, 149), (37, 149), (36, 149), (34, 148), (32, 148), (30, 148),
    (29, 147), (27, 147), (25, 147), (24, 146), (22, 146), (20, 145),
    (19, 145), (17, 144), (15, 143), (14, 143), (12, 142), (10, 142),
    (9, 141), (7, 140), (6, 139), (4, 139), (3, 138), (1, 137),
    (0, 136), (-1, 135), (-2, 134), (-4, 133), (-5, 132), (-7, 131),
    (-8, 130), (-10, 129), (-11, 128), (-12, 127), (-14, 126), (-15, 125),
    (-16, 124), (-18, 123), (-19, 121), (-20, 120), (-21, 119), (-23, 118),
    (-24, 116), (-25, 115), (-26, 114), (-27, 112), (-28, 111), (-29, 110),
    (-30, 108), (-31, 107), (-32, 105), (-33, 104), (-34, 102), (-35, 101),
    (-36, 100), (-37, 98), (-38, 96), (-39, 95), (-39, 93), (-40, 92),
    (-41, 90), (-42, 89), (-42, 87), (-43, 85), (-43, 84), (-44, 82),
    (-45, 80), (-45, 79), (-46, 77), (-46, 75), (-47, 74), (-47, 72),
    (-47, 70), (-48, 69), (-48, 67), (-48, 65), (-49, 63), (-49, 62),
    (-49, 60), (-49, 58), (-49, 56), (-49, 55), (-49, 53), (-49, 51),
    (-50, 50), (-49, 48), (-49, 46), (-49, 44), (-49, 43), (-49, 41),
    (-49, 39), (-49, 37), (-49, 36), (-48, 34), (-48, 32), (-48, 30),
    (-47, 29), (-47, 27), (-47, 25), (-46, 24), (-46, 22), (-45, 20),
    (-45, 19), (-44, 17), (-43, 15), (-43, 14), (-42, 12), (-42, 10),
    (-41, 9), (-40, 7), (-39, 6), (-39, 4), (-38, 3), (-37, 1),
    (-36, 0), (-35, -1), (-34, -2), (-33, -4), (-32, -5), (-31, -7),
    (-30, -8), (-29, -10), (-28, -11), (-27, -12), (-26, -14), (-25, -15),
    (-24, -16), (-23, -18), (-21, -19), (-20, -20), (-19, -21), (-18, -23),
    (-16, -24), (-15, -25), (-14, -26), (-12, -27), (-11, -28), (-10, -29),
    (-8, -30), (-7, -31), (-5, -32), (-4, -33), (-2, -34), (-1, -35),
    (0, -36), (1, -37), (3, -38), (4, -39), (6, -39), (7, -40),
    (9, -41), (10, -42), (12, -42), (14, -43), (15, -43), (17, -44),
    (19, -45), (20, -45), (22, -46), (24, -46), (25, -47), (27, -47),
    (29, -47), (30, -48), (32, -48), (34, -48), (36, -49), (37, -49),
    (39, -49), (41, -49), (43, -49), (44, -49), (46, -49), (48, -49),
    (49, -50), (51, -49), (53, -49), (55, -49), (56, -49), (58, -49),
    (60, -49), (62, -49), (63, -49), (65, -48), (67, -48), (69, -48),
    (70, -47), (72, -47), (74, -47), (75, -46), (77, -46), (79, -45),
    (80, -45), (82, -44), (84, -43), (85, -43), (87, -42), (89, -42),
    (90, -41), (92, -40), (93, -39), (95, -39), (96, -38), (98, -37),
    (100, -36), (101, -35), (102, -34), (104, -33), (105, -32), (107, -31),
    (108, -30), (110, -29), (111, -28), (112, -27), (114, -26), (115, -25),
    (116, -24), (118, -23), (119, -21), (120, -20), (121, -19), (123, -18),
    (124, -16), (125, -15), (126, -14), (127, -12), (128, -11), (129, -10),
    (130, -8), (131, -7), (132, -5), (133, -4), (134, -2), (135, -1),
    (136, 0), (137, 1), (138, 3), (139, 4), (139, 6), (140, 7),
    (141, 9), (142, 10), (142, 12), (143, 14), (143, 15), (144, 17),
    (145, 19), (145, 20), (146, 22), (146, 24), (147, 25), (147, 27),
    (147, 29), (148, 30), (148, 32), (148, 34), (149, 36), (149, 37),
    (149, 39), (149, 41), (149, 43), (149, 44), (149, 46), (149, 48)]

/-- The sampling function of the (50,50)-centered radius-100 outline
call, reading the table above (the radius argument is fixed at 100 by
the outline mode, which runs the single pass `f = r`). -/
def pos100 (f i : Nat) : Pixel := List.getD circleSamples100 i (0, 0)

/-- The only lattice cells 8-adjacent both to the 359-degree sample
(149,48) and to the 0-degree sample (150,50) are (149,49) and
(150,49). -/
theorem wrap_gap_cells (a b : Int) :
    adjacent (149, 48) (a, b) → adjacent (a, b) (150, 50) →
      (a = 149 ∧ b = 49) ∨ (a = 150 ∧ b = 49) := by
  intro h1 h2
  obtain ⟨h1a, h1b⟩ := h1
  obtain ⟨h2a, h2b⟩ := h2
  omega

set_option maxHeartbeats 4000000 in
set_option maxRecDepth 8000 in
/-- C7 fails on the code as stated: the full-circle outline call is not
a *closed* ring — the 359°→0° wraparound is never bridged.  At center
(50,50) and radius 100 the code samples 359° at (149,48) and 0° at
(150,50), which are distinct and not 8-adjacent (the vertical gap is
2); by `wrap_gap_cells` the only cells adjacent to both are (149,49)
and (150,49), and neither is plotted anywhere in the whole call — the
angle loop ends at 359° and draws no Line back to the 0° sample — while
(149,49) is exactly the interior pixel of the Line that would bridge
the wrap.  The ring therefore has a genuine hole at the wraparound. -/
theorem circle_wrap_gap_counterexample :
    pos100 100 359 = (149, 48) ∧ pos100 100 0 = (150, 50) ∧
    pos100 100 359 ≠ pos100 100 0 ∧
    ¬ adjacent (pos100 100 359) (pos100 100 0) ∧
    ((149 : Int), (49 : Int)) ∉ driver_framebuffer_circle pos100 100 0 360 false ∧
    ((150 : Int), (49 : Int)) ∉ driver_framebuffer_circle pos100 100 0 360 false ∧
    ((149 : Int), (49 : Int)) ∈ driver_framebuffer_line 149 48 150 50 :=
  ⟨by decide, by decide, by decide, by decide, by decide, by decide, by decide⟩

/-- C7 amended: within the sweep, consecutive sampled pairs are indeed
all bridged — in the full-circle outline call (startAngle 0,
endAngle 360), for every radius and every sampling function, each pair
of successively sampled positions (i, i+1), `i ≤ 358`, either coincides
and is plotted directly, or is bridged by a Line whose pixels all land
in the plot, contain both sample positions, and form an 8-connected
chain; only the 359°→0° wraparound pair is left unbridged (see the
counterexample). -/
theorem circle_full_sweep_bridged (pos : Nat → Nat → Pixel) (r : Nat) (i : Fin 359) :
    (pos r ((i : Nat) + 1) = pos r i ∧
      pos r ((i : Nat) + 1) ∈ driver_framebuffer_circle pos r 0 360 false) ∨
    (pos r i ∈ driver_framebuffer_line (pos r i).1 (pos r i).2
        (pos r ((i : Nat) + 1)).1 (pos r ((i : Nat) + 1)).2 ∧
     pos r ((i : Nat) + 1) ∈ driver_framebuffer_line (pos r i).1 (pos r i).2
        (pos r ((i : Nat) + 1)).1 (pos r ((i : Nat) + 1)).2 ∧
     List.Chain' adjacent (driver_framebuffer_line (pos r i).1 (pos r i).2
        (pos r ((i : Nat) + 1)).1 (pos r ((i : Nat) + 1)).2) ∧
     ∀ q ∈ driver_framebuffer_line (pos r i).1 (pos r i).2
        (pos r ((i : Nat) + 1)).1 (pos r ((i : Nat) + 1)).2,
        q ∈ driver_framebuffer_circle pos r 0 360 false) := by
  obtain ⟨iv, hi⟩ := i
  have hcirc : driver_framebuffer_circle pos r 0 360 false =
      arcLoop (pos r) (List.range' 0 360) none := by
    unfold driver_framebuffer_circle
    rw [if_neg (by omega)]
    simp only [Bool.false_eq_true, if_false, Nat.sub_zero]
    rw [show r + 1 - r = 1 by omega]
    show (List.map _ (r :: List.range' (r + 1) 0)).flatten = _
    simp
  have hsplit : List.range' 0 360 = List.range' 0 (iv + 1) ++ List.range' (iv + 1) (359 - iv) := by
    have h := List.range'_append_1 0 (iv + 1) (359 - iv)
    rw [Nat.zero_add] at h
    rw [show 359 - iv + (iv + 1) = 360 by omega] at h
    exact h.symm
  have hfold : (List.range' 0 (iv + 1)).foldl (fun _ j => some (pos r j)) none =
      some (pos r iv) := by
    rw [List.range'_1_concat, List.foldl_append]
    simp
  have harc : arcLoop (pos r) (List.range' 0 360) none =
      arcLoop (pos r) (List.range' 0 (iv + 1)) none ++
      arcLoop (pos r) (List.range' (iv + 1) (359 - iv)) (some (pos r iv)) := by
    rw [hsplit, arcLoop_append, hfold]
  have hnext : List.range' (iv + 1) (359 - iv) = (iv + 1) :: List.range' (iv + 1 + 1) (358 - iv) := by
    rw [show 359 - iv = (358 - iv) + 1 by omega, List.range'_succ]
  by_cases hpq : pos r (iv + 1) = pos r iv
  · left
    refine ⟨hpq, ?_⟩
    rw [hcirc, harc, hnext]
    show _ ∈ _ ++ (if pos r (iv + 1) ≠ pos r iv then _ else
      pos r (iv + 1) :: arcLoop (pos r) (List.range' (iv + 1 + 1) (358 - iv))
        (some (pos r (iv + 1))))
    rw [if_neg (not_not_intro hpq)]
    exact List.mem_append.mpr (Or.inr (List.mem_cons_self _ _))
  · right
    have hline : arcLoop (pos r) (List.range' (iv + 1) (359 - iv)) (some (pos r iv)) =
        driver_framebuffer_line (pos r iv).1 (pos r iv).2
          (pos r (iv + 1)).1 (pos r (iv + 1)).2 ++
        arcLoop (pos r) (List.range' (iv + 1 + 1) (358 - iv)) (some (pos r (iv + 1))) := by
      rw [hnext]
      show (if pos r (iv + 1) ≠ pos r iv then _ else _) = _
      rw [if_pos hpq]
    have hends := line_head_getLast (pos r iv).1 (pos r iv).2
      (pos r (iv + 1)).1 (pos r (iv + 1)).2
    have hmem : ∀ q ∈ driver_framebuffer_line (pos r iv).1 (pos r iv).2
        (pos r (iv + 1)).1 (pos r (iv + 1)).2,
        q ∈ driver_framebuffer_circle pos r 0 360 false := by
      intro q hq
      rw [hcirc, harc, hline]
      exact List.mem_append.mpr (Or.inr (List.mem_append.mpr (Or.inl hq)))
    have hchain := line_chain (pos r iv).1 (pos r iv).2
      (pos r (iv + 1)).1 (pos r (iv + 1)).2
    rcases hends with ⟨hh, hl⟩ | ⟨hh, hl⟩
    · refine ⟨?_, ?_, hchain, hmem⟩
      · have := List.mem_of_mem_head? (Option.mem_def.mpr hh)
        simpa using this
      · have := List.mem_of_mem_getLast? (Option.mem_def.mpr hl)
        simpa using this
    · refine ⟨?_, ?_, hchain, hmem⟩
      · have := List.mem_of_mem_getLast? (Option.mem_def.mpr hl)
        simpa using this
      · have := List.mem_of_mem_head? (Option.mem_def.mpr hh)
        simpa using this

end FbDraw
